import Mathlib

/-!
# `migrations/1_WalletInfra.js`

A shallow embedding of the wallet-infrastructure migration

```
const Factory = artifacts.require("WalletFactory")
const Wallet = artifacts.require("Wallet")

module.exports = async function (d) {
    await d.deploy(Wallet);
    await d.deploy(Factory, Wallet.address)
    console.log(...)
}
```

The function talks to three collaborators: the deployer `d`, the two artifact
objects and the console.  The artifact table is explicit state, the deployer is
an arbitrary state transformer which may fail, reading the address of an
artifact that has none throws, and every call the function makes on a
collaborator is appended to a call log so that number, order and arguments of
the calls can be stated.
-/

namespace WalletInfra

/-! ## Data model -/

/-- A contract artifact, identified by the name it was required under. -/
structure Artifact where
  contractName : String
deriving DecidableEq, Repr

/-- The call `artifacts.require(name)`. -/
def artifacts.require (name : String) : Artifact := ⟨name⟩

/-- The constant `const Factory = artifacts.require("WalletFactory")`. -/
def Factory : Artifact := artifacts.require "WalletFactory"

/-- The constant `const Wallet = artifacts.require("Wallet")`. -/
def Wallet : Artifact := artifacts.require "Wallet"

/-- What an artifact holds as its address: `undefined` while no address is
bound, the bound address otherwise. -/
inductive Value where
  | undefined
  | address (hex : String)
deriving DecidableEq, Repr

/-- String conversion of a value inside a template literal. -/
def Value.toString : Value → String
  | .undefined => "undefined"
  | .address hex => hex

/-- The world the migration runs in: the address each artifact currently holds
and the state of whatever stands behind the deployer (network, accounts, ...). -/
structure World (ν : Type) where
  addressOf : Artifact → Value
  network : ν

/-- The deployer `d`.  `deploy artifact args w` is the outcome of the awaited
call `d.deploy(artifact, ...args)` made in world `w`: the promise is fulfilled
(`ok`) or rejected with an error, and the world is left as the call made it.
Nothing is assumed about what a deployer does to the world. -/
structure Deployer (ν ε : Type) where
  deploy : Artifact → List Value → World ν → Except ε Unit × World ν

/-- Why a run of the migration fails. -/
inductive Failure (ε : Type) where
  /-- The awaited `d.deploy(...)` was rejected with error `e`, which is passed on unchanged. -/
  | deployRejected (e : ε)
  /-- Modelled from the spec: the `UnresolvedDependencyError` of section 4.2,
  thrown when the address of an artifact is read while none is bound. -/
  | unresolvedDependency (artifact : Artifact)
deriving DecidableEq, Repr

/-- A call made on a collaborator during a run. -/
inductive Call where
  /-- The call `d.deploy(artifact, ...args)`. -/
  | deploy (artifact : Artifact) (args : List Value)
  /-- The call `console.log(text)`. -/
  | log (text : String)
  /-- Modelled from the spec: `MigrationRegistry.recordCompletion(network, stepId)`,
  the registry write of section 4.1.  The registry is not part of the source;
  the constructor exists so that its absence from a run can be stated. -/
  | recordCompletion (stepId : Nat)
deriving DecidableEq, Repr

/-- The state threaded through a run: the world and the calls made so far, oldest first. -/
structure Run (ν : Type) where
  world : World ν
  calls : List Call

/-- An asynchronous computation: from a run state it either yields a value or
throws, and leaves a run state behind in both cases. -/
def Eff (ν ε α : Type) : Type := Run ν → Except (Failure ε) α × Run ν

/-- Sequencing as in an `async` body without `try`: a rejected `await` ends the body with that error. -/
instance (ν ε : Type) : Monad (Eff ν ε) where
  pure a := fun r => (.ok a, r)
  bind m f := fun r =>
    match m r with
    | (.ok a, r1) => f a r1
    | (.error e, r1) => (.error e, r1)

/-! ## Operations -/

/-- The statement `await d.deploy(artifact, ...args)`: the call is recorded,
the deployer acts on the world, and a rejection is thrown on as it is. -/
def awaitDeploy {ν ε : Type} (d : Deployer ν ε) (artifact : Artifact) (args : List Value) :
    Eff ν ε Unit := fun r =>
  (match (d.deploy artifact args r.world).1 with
    | .ok u => .ok u
    | .error e => .error (Failure.deployRejected e),
    ⟨(d.deploy artifact args r.world).2, r.calls ++ [Call.deploy artifact args]⟩)

/-- Modelled from the spec: the expression `artifact.address`, read as the
`resolve(name)` of section 4.2.  The accessor belongs to the artifact objects
that `artifacts.require` returns, which are not part of the source: it yields
the bound address, and throws when the artifact has no address bound instead
of yielding `undefined`. -/
def address {ν ε : Type} (artifact : Artifact) : Eff ν ε Value := fun r =>
  match r.world.addressOf artifact with
  | .undefined => (.error (Failure.unresolvedDependency artifact), r)
  | .address hex => (.ok (.address hex), r)

/-- The call `console.log(text)`. -/
def console.log {ν ε : Type} (text : String) : Eff ν ε Unit := fun r =>
  (.ok (), ⟨r.world, r.calls ++ [Call.log text]⟩)

/-- The template literal of lines 9-12, with its two substitutions. -/
def banner (factoryAddress walletAddress : Value) : String :=
  "\n        Wallet Factory:        " ++ factoryAddress.toString ++
  "\n        Wallet Implementation: " ++ walletAddress.toString ++
  "\n    "

/-- The exported function `module.exports = async function (d) { ... }`. -/
def migration {ν ε : Type} (d : Deployer ν ε) : Eff ν ε Unit := do
  awaitDeploy d Wallet []
  awaitDeploy d Factory [← address Wallet]
  console.log (banner (← address Factory) (← address Wallet))

/-- One run of the migration from world `w`, starting with an empty call log. -/
def runMigration {ν ε : Type} (d : Deployer ν ε) (w : World ν) :
    Except (Failure ε) Unit × Run ν :=
  migration d ⟨w, []⟩

/-! ## Observations on a call log -/

/-- The deploy calls of a log, in order, each with its artifact and constructor arguments. -/
def deployCalls : List Call → List (Artifact × List Value)
  | [] => []
  | .deploy artifact args :: cs => (artifact, args) :: deployCalls cs
  | _ :: cs => deployCalls cs

/-- The texts logged, in order. -/
def logged : List Call → List String
  | [] => []
  | .log text :: cs => text :: logged cs
  | _ :: cs => logged cs

/-- Modelled from the spec: the step ids of the registry completion records
(`MigrationRegistry.recordCompletion`, not part of the source) among the calls
of a log, in order. -/
def completionRecords : List Call → List Nat
  | [] => []
  | .recordCompletion stepId :: cs => stepId :: completionRecords cs
  | _ :: cs => completionRecords cs

/-- The world the Wallet deploy leaves behind. -/
def afterWallet {ν ε : Type} (d : Deployer ν ε) (w : World ν) : World ν :=
  (d.deploy Wallet [] w).2

/-- The world the WalletFactory deploy leaves behind, when made after the Wallet deploy. -/
def afterFactory {ν ε : Type} (d : Deployer ν ε) (w : World ν) : World ν :=
  (d.deploy Factory [(afterWallet d w).addressOf Wallet] (afterWallet d w)).2

/-- The outcome of the Wallet deploy call of a run from `w`. -/
def walletDeploy {ν ε : Type} (d : Deployer ν ε) (w : World ν) : Except ε Unit :=
  (d.deploy Wallet [] w).1

/-- The outcome of the WalletFactory deploy call of a run from `w`; `none` when
the run never makes that call, because the Wallet deploy was rejected or left
Wallet without an address. -/
def factoryDeploy {ν ε : Type} (d : Deployer ν ε) (w : World ν) : Option (Except ε Unit) :=
  match walletDeploy d w, (afterWallet d w).addressOf Wallet with
  | .ok _, .address hex => some (d.deploy Factory [.address hex] (afterWallet d w)).1
  | _, _ => none

/-- A second run of the migration, started in the world the first run left behind. -/
def rerunMigration {ν ε : Type} (d : Deployer ν ε) (w : World ν) :
    Except (Failure ε) Unit × Run ν :=
  runMigration d (runMigration d w).2.world

/-- Whether `text` contains `x` and, somewhere after that occurrence, `y`. -/
def mentionsInOrder (x y text : String) : Bool :=
  (List.range (text.data.length + 1)).any fun i =>
    x.data.isPrefixOf (text.data.drop i) &&
    (List.range (text.data.length + 1)).any fun j =>
      decide (i + x.data.length ≤ j) && y.data.isPrefixOf (text.data.drop j)

/-! ## Concrete deployers and worlds -/

/-- The address handed out for the `k`-th deployment on the test network. -/
def nthAddress : Nat → String
  | 0 => "0xA1"
  | 1 => "0xA2"
  | 2 => "0xA3"
  | _ => "0xA4"

/-- A deployer that always succeeds: it binds the artifact to the next address
of the network, whatever the artifact held before. -/
def countingDeployer : Deployer Nat String where
  deploy artifact _ w :=
    (.ok (), ⟨fun b => if b = artifact then .address (nthAddress w.network) else w.addressOf b,
      w.network + 1⟩)

/-- A deployer whose `deploy` is always fulfilled, and which binds an address
for one artifact only. -/
def bindingOnly (bound : Artifact) : Deployer Nat String where
  deploy artifact args w :=
    if artifact = bound then countingDeployer.deploy artifact args w else (.ok (), w)

/-- A deployer whose `deploy` is fulfilled without binding any address. -/
def idleDeployer : Deployer Nat String where
  deploy _ _ w := (.ok (), w)

/-- A deployer that rejects the deployment of one artifact and deploys every other one. -/
def revertOn (rejected : Artifact) : Deployer Nat String where
  deploy artifact args w :=
    if artifact = rejected then (.error "execution reverted", w)
    else countingDeployer.deploy artifact args w

/-- A world in which no artifact has an address. -/
def freshWorld : World Nat := ⟨fun _ => .undefined, 0⟩

/-- A world in which Wallet already holds the address `0xA0`. -/
def boundWorld : World Nat :=
  ⟨fun b => if b = Wallet then .address "0xA0" else .undefined, 0⟩

/-! ## The shapes of a run -/

theorem wallet_ne_factory : Wallet ≠ Factory := by decide

theorem factoryDeploy_of_rejected {ν ε : Type} (d : Deployer ν ε) (w : World ν) (e : ε)
    (h : walletDeploy d w = .error e) : factoryDeploy d w = none := by
  simp [factoryDeploy, h]

theorem factoryDeploy_of_unbound {ν ε : Type} (d : Deployer ν ε) (w : World ν)
    (h : (afterWallet d w).addressOf Wallet = .undefined) : factoryDeploy d w = none := by
  unfold factoryDeploy
  rw [h]
  cases walletDeploy d w <;> rfl

theorem factoryDeploy_of_bound {ν ε : Type} (d : Deployer ν ε) (w : World ν) (hex : String)
    (h1 : walletDeploy d w = .ok ()) (hb : (afterWallet d w).addressOf Wallet = .address hex) :
    factoryDeploy d w = some (d.deploy Factory [.address hex] (afterWallet d w)).1 := by
  simp [factoryDeploy, h1, hb]

/-- The Wallet deploy is rejected. -/
theorem run_wallet_rejected {ν ε : Type} (d : Deployer ν ε) (w : World ν) (e : ε)
    (h : walletDeploy d w = .error e) :
    runMigration d w =
      (.error (.deployRejected e), ⟨afterWallet d w, [Call.deploy Wallet []]⟩) := by
  simp only [walletDeploy] at h
  simp [runMigration, migration, bind, awaitDeploy, h, afterWallet]

/-- The Wallet deploy is fulfilled and leaves Wallet without an address. -/
theorem run_wallet_unbound {ν ε : Type} (d : Deployer ν ε) (w : World ν)
    (h1 : walletDeploy d w = .ok ()) (hu : (afterWallet d w).addressOf Wallet = .undefined) :
    runMigration d w =
      (.error (.unresolvedDependency Wallet), ⟨afterWallet d w, [Call.deploy Wallet []]⟩) := by
  simp only [walletDeploy] at h1
  simp only [afterWallet] at hu
  simp [runMigration, migration, bind, awaitDeploy, address, h1, hu, afterWallet]

/-- The WalletFactory deploy is rejected. -/
theorem run_factory_rejected {ν ε : Type} (d : Deployer ν ε) (w : World ν) (hex : String)
    (e : ε) (h1 : walletDeploy d w = .ok ())
    (hb : (afterWallet d w).addressOf Wallet = .address hex)
    (h2 : (d.deploy Factory [.address hex] (afterWallet d w)).1 = .error e) :
    runMigration d w = (.error (.deployRejected e), ⟨afterFactory d w,
      [Call.deploy Wallet [], Call.deploy Factory [.address hex]]⟩) := by
  simp only [walletDeploy] at h1
  simp only [afterWallet] at hb h2
  simp [runMigration, migration, bind, awaitDeploy, address, h1, hb, h2, afterWallet,
    afterFactory]

/-- Both deploys are fulfilled and WalletFactory is left without an address. -/
theorem run_factory_unbound {ν ε : Type} (d : Deployer ν ε) (w : World ν) (hex : String)
    (h1 : walletDeploy d w = .ok ())
    (hb : (afterWallet d w).addressOf Wallet = .address hex)
    (h2 : (d.deploy Factory [.address hex] (afterWallet d w)).1 = .ok ())
    (hf : (afterFactory d w).addressOf Factory = .undefined) :
    runMigration d w = (.error (.unresolvedDependency Factory), ⟨afterFactory d w,
      [Call.deploy Wallet [], Call.deploy Factory [.address hex]]⟩) := by
  simp only [walletDeploy] at h1
  simp only [afterFactory, afterWallet] at hb h2 hf
  simp only [hb] at hf
  simp [runMigration, migration, bind, awaitDeploy, address, h1, hb, h2, hf, afterWallet,
    afterFactory]

/-- Both deploys are fulfilled, WalletFactory holds an address and Wallet holds none any more. -/
theorem run_wallet_unbound_at_log {ν ε : Type} (d : Deployer ν ε) (w : World ν)
    (hex fhex : String) (h1 : walletDeploy d w = .ok ())
    (hb : (afterWallet d w).addressOf Wallet = .address hex)
    (h2 : (d.deploy Factory [.address hex] (afterWallet d w)).1 = .ok ())
    (hf : (afterFactory d w).addressOf Factory = .address fhex)
    (hw : (afterFactory d w).addressOf Wallet = .undefined) :
    runMigration d w = (.error (.unresolvedDependency Wallet), ⟨afterFactory d w,
      [Call.deploy Wallet [], Call.deploy Factory [.address hex]]⟩) := by
  simp only [walletDeploy] at h1
  simp only [afterFactory, afterWallet] at hb h2 hf hw
  simp only [hb] at hf hw
  simp [runMigration, migration, bind, awaitDeploy, address, h1, hb, h2, hf, hw, afterWallet,
    afterFactory]

/-- Both deploys are fulfilled and both artifacts hold an address afterwards. -/
theorem run_succeeds {ν ε : Type} (d : Deployer ν ε) (w : World ν)
    (hex fhex whex : String) (h1 : walletDeploy d w = .ok ())
    (hb : (afterWallet d w).addressOf Wallet = .address hex)
    (h2 : (d.deploy Factory [.address hex] (afterWallet d w)).1 = .ok ())
    (hf : (afterFactory d w).addressOf Factory = .address fhex)
    (hw : (afterFactory d w).addressOf Wallet = .address whex) :
    runMigration d w = (.ok (), ⟨afterFactory d w,
      [Call.deploy Wallet [], Call.deploy Factory [.address hex],
       Call.log (banner (.address fhex) (.address whex))]⟩) := by
  simp only [walletDeploy] at h1
  simp only [afterFactory, afterWallet] at hb h2 hf hw
  simp only [hb] at hf hw
  simp [runMigration, migration, bind, awaitDeploy, address, console.log, h1, hb, h2, hf, hw,
    afterWallet, afterFactory]

/-- Every run has one of six shapes. -/
theorem run_shape {ν ε : Type} (d : Deployer ν ε) (w : World ν) :
    (∃ e, walletDeploy d w = .error e ∧ factoryDeploy d w = none ∧
      runMigration d w =
        (.error (.deployRejected e), ⟨afterWallet d w, [Call.deploy Wallet []]⟩)) ∨
    (walletDeploy d w = .ok () ∧ (afterWallet d w).addressOf Wallet = .undefined ∧
      factoryDeploy d w = none ∧
      runMigration d w =
        (.error (.unresolvedDependency Wallet), ⟨afterWallet d w, [Call.deploy Wallet []]⟩)) ∨
    (∃ hex e, walletDeploy d w = .ok () ∧
      (afterWallet d w).addressOf Wallet = .address hex ∧
      factoryDeploy d w = some (.error e) ∧
      runMigration d w = (.error (.deployRejected e), ⟨afterFactory d w,
        [Call.deploy Wallet [], Call.deploy Factory [.address hex]]⟩)) ∨
    (∃ hex, walletDeploy d w = .ok () ∧
      (afterWallet d w).addressOf Wallet = .address hex ∧
      factoryDeploy d w = some (.ok ()) ∧
      (afterFactory d w).addressOf Factory = .undefined ∧
      runMigration d w = (.error (.unresolvedDependency Factory), ⟨afterFactory d w,
        [Call.deploy Wallet [], Call.deploy Factory [.address hex]]⟩)) ∨
    (∃ hex fhex, walletDeploy d w = .ok () ∧
      (afterWallet d w).addressOf Wallet = .address hex ∧
      factoryDeploy d w = some (.ok ()) ∧
      (afterFactory d w).addressOf Factory = .address fhex ∧
      (afterFactory d w).addressOf Wallet = .undefined ∧
      runMigration d w = (.error (.unresolvedDependency Wallet), ⟨afterFactory d w,
        [Call.deploy Wallet [], Call.deploy Factory [.address hex]]⟩)) ∨
    (∃ hex fhex whex, walletDeploy d w = .ok () ∧
      (afterWallet d w).addressOf Wallet = .address hex ∧
      factoryDeploy d w = some (.ok ()) ∧
      (afterFactory d w).addressOf Factory = .address fhex ∧
      (afterFactory d w).addressOf Wallet = .address whex ∧
      runMigration d w = (.ok (), ⟨afterFactory d w,
        [Call.deploy Wallet [], Call.deploy Factory [.address hex],
         Call.log (banner (.address fhex) (.address whex))]⟩)) := by
  cases h1 : walletDeploy d w with
  | error e =>
    exact Or.inl ⟨e, rfl, factoryDeploy_of_rejected d w e h1, run_wallet_rejected d w e h1⟩
  | ok u =>
    cases hb : (afterWallet d w).addressOf Wallet with
    | undefined =>
      exact Or.inr (Or.inl ⟨rfl, rfl, factoryDeploy_of_unbound d w hb,
        run_wallet_unbound d w h1 hb⟩)
    | address hex =>
      have hfd := factoryDeploy_of_bound d w hex h1 hb
      cases h2 : (d.deploy Factory [.address hex] (afterWallet d w)).1 with
      | error e =>
        rw [h2] at hfd
        exact Or.inr (Or.inr (Or.inl ⟨hex, e, rfl, rfl, hfd,
          run_factory_rejected d w hex e h1 hb h2⟩))
      | ok v =>
        rw [h2] at hfd
        cases hf : (afterFactory d w).addressOf Factory with
        | undefined =>
          exact Or.inr (Or.inr (Or.inr (Or.inl ⟨hex, rfl, rfl, hfd, rfl,
            run_factory_unbound d w hex h1 hb h2 hf⟩)))
        | address fhex =>
          cases hw : (afterFactory d w).addressOf Wallet with
          | undefined =>
            exact Or.inr (Or.inr (Or.inr (Or.inr (Or.inl ⟨hex, fhex, rfl, rfl, hfd, rfl, rfl,
              run_wallet_unbound_at_log d w hex fhex h1 hb h2 hf hw⟩))))
          | address whex =>
            exact Or.inr (Or.inr (Or.inr (Or.inr (Or.inr ⟨hex, fhex, whex, rfl, rfl, hfd, rfl,
              rfl, run_succeeds d w hex fhex whex h1 hb h2 hf hw⟩))))

/-- When the run never makes the WalletFactory deploy call, its only call is the Wallet deploy. -/
theorem calls_of_factory_not_called {ν ε : Type} (d : Deployer ν ε) (w : World ν)
    (h : factoryDeploy d w = none) :
    (runMigration d w).2.calls = [Call.deploy Wallet []] := by
  rcases run_shape d w with ⟨e, _, _, hr⟩ | ⟨_, _, _, hr⟩ | ⟨hex, e, _, _, h2, _⟩ |
    ⟨hex, _, _, h2, _⟩ | ⟨hex, fhex, _, _, h2, _⟩ | ⟨hex, fhex, whex, _, _, h2, _⟩
  · rw [hr]
  · rw [hr]
  all_goals (rw [h] at h2; cases h2)

/-- When the run makes the WalletFactory deploy call, its deploy calls are the
Wallet deploy and then the WalletFactory deploy with the address Wallet holds
after the first deploy. -/
theorem deployCalls_of_factory_called {ν ε : Type} (d : Deployer ν ε) (w : World ν)
    (r : Except ε Unit) (h : factoryDeploy d w = some r) :
    deployCalls (runMigration d w).2.calls =
      [(Wallet, []), (Factory, [(afterWallet d w).addressOf Wallet])] := by
  rcases run_shape d w with ⟨e, _, h2, _⟩ | ⟨_, _, h2, _⟩ | ⟨hex, e, _, hb, _, hr⟩ |
    ⟨hex, _, hb, _, _, hr⟩ | ⟨hex, fhex, _, hb, _, _, _, hr⟩ |
    ⟨hex, fhex, whex, _, hb, _, _, _, hr⟩
  · rw [h] at h2; cases h2
  · rw [h] at h2; cases h2
  all_goals (rw [hr, hb]; rfl)

/-! ## Properties that hold as specified -/

/-- C1: for every deployer whose two deploy calls succeed, one run of the
migration makes exactly two deploy calls and no others, in this order: first
the Wallet artifact with no constructor arguments, then the WalletFactory
artifact with exactly one constructor argument. -/
theorem C1_two_deploys_in_order {ν ε : Type} (d : Deployer ν ε) (w : World ν)
    (_h1 : walletDeploy d w = .ok ()) (h2 : factoryDeploy d w = some (.ok ())) :
    deployCalls (runMigration d w).2.calls =
      [(artifacts.require "Wallet", []),
       (artifacts.require "WalletFactory", [(afterWallet d w).addressOf Wallet])] :=
  deployCalls_of_factory_called d w _ h2

theorem C1_two_deploys_in_order_witness :
    walletDeploy countingDeployer freshWorld = .ok () ∧
    factoryDeploy countingDeployer freshWorld = some (.ok ()) ∧
    deployCalls (runMigration countingDeployer freshWorld).2.calls =
      [(artifacts.require "Wallet", []),
       (artifacts.require "WalletFactory", [(afterWallet countingDeployer freshWorld).addressOf Wallet])] :=
  ⟨rfl, rfl, C1_two_deploys_in_order countingDeployer freshWorld rfl rfl⟩

/-- C2: for every initial artifact state and every deployer, if the Wallet
deploy succeeds and leaves address `A1` bound to Wallet, then the WalletFactory
deploy is called, every WalletFactory deploy call carries exactly the
constructor argument `A1`, and a value `A0` other than `A1` that Wallet held
before the run is not the one passed. -/
theorem C2_factory_argument_is_fresh_address {ν ε : Type} (d : Deployer ν ε) (w : World ν)
    (A1 : String) (h1 : walletDeploy d w = .ok ())
    (hb : (afterWallet d w).addressOf Wallet = .address A1) :
    (Factory, [Value.address A1]) ∈ deployCalls (runMigration d w).2.calls ∧
    (∀ args, (Factory, args) ∈ deployCalls (runMigration d w).2.calls →
      args = [Value.address A1]) ∧
    (∀ A0, w.addressOf Wallet = A0 → A0 ≠ Value.address A1 →
      (Factory, [A0]) ∉ deployCalls (runMigration d w).2.calls) := by
  have hcalls : deployCalls (runMigration d w).2.calls =
      [(Wallet, []), (Factory, [Value.address A1])] := by
    rw [deployCalls_of_factory_called d w _ (factoryDeploy_of_bound d w A1 h1 hb), hb]
  have hargs : ∀ args, (Factory, args) ∈ deployCalls (runMigration d w).2.calls →
      args = [Value.address A1] := by
    intro args hmem
    rw [hcalls] at hmem
    simp only [List.mem_cons, Prod.mk.injEq, List.mem_singleton, List.not_mem_nil,
      or_false] at hmem
    rcases hmem with ⟨hne, _⟩ | ⟨_, h⟩
    · exact absurd hne.symm wallet_ne_factory
    · exact h
  refine ⟨?_, hargs, ?_⟩
  · rw [hcalls]; simp
  · intro A0 _ hne hmem
    have := hargs [A0] hmem
    simp only [List.cons.injEq, and_true] at this
    exact hne this

theorem C2_factory_argument_is_fresh_address_witness :
    walletDeploy countingDeployer boundWorld = .ok () ∧
    (afterWallet countingDeployer boundWorld).addressOf Wallet = .address "0xA1" ∧
    (Factory, [Value.address "0xA1"]) ∈
      deployCalls (runMigration countingDeployer boundWorld).2.calls ∧
    (∀ args, (Factory, args) ∈ deployCalls (runMigration countingDeployer boundWorld).2.calls →
      args = [Value.address "0xA1"]) ∧
    (∀ A0, boundWorld.addressOf Wallet = A0 → A0 ≠ Value.address "0xA1" →
      (Factory, [A0]) ∉ deployCalls (runMigration countingDeployer boundWorld).2.calls) :=
  ⟨rfl, rfl, C2_factory_argument_is_fresh_address countingDeployer boundWorld "0xA1" rfl rfl⟩

/-- C3: for every deployer, if the deploy of Wallet fails, the migration halts
at once: the only call of the run is the one Wallet deploy, so the
WalletFactory deploy is never called, the Wallet deploy is not retried and
nothing is logged. -/
theorem C3_wallet_failure_halts {ν ε : Type} (d : Deployer ν ε) (w : World ν) (e : ε)
    (h : walletDeploy d w = .error e) :
    (runMigration d w).2.calls = [Call.deploy Wallet []] ∧
    deployCalls (runMigration d w).2.calls = [(Wallet, [])] ∧
    (∀ args, (Factory, args) ∉ deployCalls (runMigration d w).2.calls) ∧
    logged (runMigration d w).2.calls = [] := by
  rw [run_wallet_rejected d w e h]
  refine ⟨rfl, rfl, ?_, rfl⟩
  intro args hmem
  simp only [deployCalls, List.mem_singleton, Prod.mk.injEq] at hmem
  exact absurd hmem.1.symm wallet_ne_factory

theorem C3_wallet_failure_halts_witness :
    walletDeploy (revertOn Wallet) freshWorld = .error "execution reverted" ∧
    (runMigration (revertOn Wallet) freshWorld).2.calls = [Call.deploy Wallet []] ∧
    deployCalls (runMigration (revertOn Wallet) freshWorld).2.calls = [(Wallet, [])] ∧
    (∀ args, (Factory, args) ∉ deployCalls (runMigration (revertOn Wallet) freshWorld).2.calls) ∧
    logged (runMigration (revertOn Wallet) freshWorld).2.calls = [] :=
  ⟨rfl, C3_wallet_failure_halts (revertOn Wallet) freshWorld "execution reverted" rfl⟩

/-- C5: for every deployer, the WalletFactory deploy is never made with a
missing Wallet address: every WalletFactory deploy call of a run carries the
address bound to Wallet after the Wallet deploy, and if the Wallet deploy
succeeds but Wallet has no bound address where the migration reads it, the
run fails with the unresolved-dependency error for Wallet and makes zero
WalletFactory deploy calls. -/
theorem C5_unbound_wallet_address_halts {ν ε : Type} (d : Deployer ν ε) (w : World ν) :
    (∀ args, (Factory, args) ∈ deployCalls (runMigration d w).2.calls →
      ∃ hex, args = [Value.address hex] ∧
        (afterWallet d w).addressOf Wallet = Value.address hex) ∧
    (walletDeploy d w = .ok () → (afterWallet d w).addressOf Wallet = .undefined →
      (runMigration d w).1 = .error (.unresolvedDependency Wallet) ∧
      (∀ args, (Factory, args) ∉ deployCalls (runMigration d w).2.calls) ∧
      deployCalls (runMigration d w).2.calls = [(Wallet, [])]) := by
  constructor
  · intro args hmem
    cases hfd : factoryDeploy d w with
    | none =>
      rw [calls_of_factory_not_called d w hfd] at hmem
      simp only [deployCalls, List.mem_singleton, Prod.mk.injEq] at hmem
      exact absurd hmem.1.symm wallet_ne_factory
    | some r =>
      rw [deployCalls_of_factory_called d w r hfd] at hmem
      simp only [List.mem_cons, Prod.mk.injEq, List.mem_singleton, List.not_mem_nil,
        or_false] at hmem
      rcases hmem with ⟨hne, _⟩ | ⟨_, hargs⟩
      · exact absurd hne.symm wallet_ne_factory
      · cases hb : (afterWallet d w).addressOf Wallet with
        | undefined => rw [factoryDeploy_of_unbound d w hb] at hfd; cases hfd
        | address hex => exact ⟨hex, by rw [hargs, hb], rfl⟩
  · intro h1 hu
    rw [run_wallet_unbound d w h1 hu]
    refine ⟨rfl, ?_, rfl⟩
    intro args hmem
    simp only [deployCalls, List.mem_singleton, Prod.mk.injEq] at hmem
    exact absurd hmem.1.symm wallet_ne_factory

theorem C5_unbound_wallet_address_halts_witness :
    walletDeploy idleDeployer freshWorld = .ok () ∧
    (afterWallet idleDeployer freshWorld).addressOf Wallet = .undefined ∧
    (runMigration idleDeployer freshWorld).1 = .error (.unresolvedDependency Wallet) ∧
    (∀ args, (Factory, args) ∉ deployCalls (runMigration idleDeployer freshWorld).2.calls) ∧
    deployCalls (runMigration idleDeployer freshWorld).2.calls = [(Wallet, [])] :=
  ⟨rfl, rfl, (C5_unbound_wallet_address_halts idleDeployer freshWorld).2 rfl rfl⟩

/-- C10: in every run of the migration, successful or failed, deploy is called
at most once for each artifact, in particular at most once for Wallet and at
most once for WalletFactory. -/
theorem C10_each_artifact_deployed_at_most_once {ν ε : Type} (d : Deployer ν ε) (w : World ν)
    (artifact : Artifact) :
    ((deployCalls (runMigration d w).2.calls).filter (fun c => c.1 = artifact)).length ≤ 1 := by
  have hwf := wallet_ne_factory
  cases hfd : factoryDeploy d w with
  | none =>
    rw [calls_of_factory_not_called d w hfd]
    simp only [deployCalls, List.filter]
    split <;> simp
  | some r =>
    rw [deployCalls_of_factory_called d w r hfd]
    simp only [List.filter]
    by_cases ha : Wallet = artifact
    · have hf : ¬ Factory = artifact := fun h => hwf (ha.trans h.symm)
      simp [ha, hf]
    · simp only [ha, decide_False]
      split <;> simp

/-! ## Properties where the code differs from the specification -/

/-- C4 fails as stated: with a deployer whose deploys are both fulfilled but
which binds an address for Wallet only, no deploy call fails, yet the run fails
when it reads the address of WalletFactory for the log. -/
theorem C4_counterexample :
    walletDeploy (bindingOnly Wallet) freshWorld = .ok () ∧
    factoryDeploy (bindingOnly Wallet) freshWorld = some (.ok ()) ∧
    deployCalls (runMigration (bindingOnly Wallet) freshWorld).2.calls =
      [(Wallet, []), (Factory, [Value.address "0xA1"])] ∧
    (runMigration (bindingOnly Wallet) freshWorld).1 = .error (.unresolvedDependency Factory) ∧
    ¬ ((∃ f, (runMigration (bindingOnly Wallet) freshWorld).1 = .error f) ↔
        ((∃ e, walletDeploy (bindingOnly Wallet) freshWorld = .error e) ∨
          (∃ e, factoryDeploy (bindingOnly Wallet) freshWorld = some (.error e)))) := by
  refine ⟨rfl, rfl, rfl, rfl, ?_⟩
  intro h
  have hw : walletDeploy (bindingOnly Wallet) freshWorld = .ok () := rfl
  have hf : factoryDeploy (bindingOnly Wallet) freshWorld = some (.ok ()) := rfl
  rcases h.mp ⟨_, rfl⟩ with ⟨e, he⟩ | ⟨e, he⟩
  · rw [hw] at he; cases he
  · rw [hf] at he; cases he

/-- C4 amended: for every deployer, the migration fails if and only if one of
its deploy calls fails or a read of an artifact's address finds none bound.  A
deploy failure is reported with the error of the deploy call that failed; an
unbound read (Wallet after the first deploy, WalletFactory or Wallet after the
second) is reported as the unresolved-dependency error of that artifact; the
run succeeds exactly when both deploy calls succeed and both artifacts hold an
address after the second. -/
theorem C4_failure_is_deploy_or_unbound_read {ν ε : Type} (d : Deployer ν ε) (w : World ν) :
    (∀ e, (runMigration d w).1 = .error (.deployRejected e) ↔
      (walletDeploy d w = .error e ∨ factoryDeploy d w = some (.error e))) ∧
    (∀ artifact, (runMigration d w).1 = .error (.unresolvedDependency artifact) ↔
      ((artifact = Wallet ∧ walletDeploy d w = .ok () ∧
          (afterWallet d w).addressOf Wallet = .undefined) ∨
        (artifact = Factory ∧ factoryDeploy d w = some (.ok ()) ∧
          (afterFactory d w).addressOf Factory = .undefined) ∨
        (artifact = Wallet ∧ factoryDeploy d w = some (.ok ()) ∧
          (afterFactory d w).addressOf Factory ≠ .undefined ∧
          (afterFactory d w).addressOf Wallet = .undefined))) ∧
    ((runMigration d w).1 = .ok () ↔
      (walletDeploy d w = .ok () ∧ factoryDeploy d w = some (.ok ()) ∧
        (afterFactory d w).addressOf Factory ≠ .undefined ∧
        (afterFactory d w).addressOf Wallet ≠ .undefined)) := by
  have hwf := wallet_ne_factory
  have hfw : Factory ≠ Wallet := fun h => hwf h.symm
  rcases run_shape d w with ⟨e0, h1, h2, hr⟩ | ⟨h1, hb, h2, hr⟩ | ⟨hex, e0, h1, hb, h2, hr⟩ |
    ⟨hex, h1, hb, h2, hf, hr⟩ | ⟨hex, fhex, h1, hb, h2, hf, hw, hr⟩ |
    ⟨hex, fhex, whex, h1, hb, h2, hf, hw, hr⟩
  · rw [hr, h1, h2]; simp
  · rw [hr, h1, h2, hb]
    refine ⟨by simp, ?_, by simp⟩
    intro artifact
    constructor
    · intro h
      simp only [Except.error.injEq, Failure.unresolvedDependency.injEq] at h
      exact Or.inl ⟨h.symm, rfl, rfl⟩
    · rintro (⟨ha, _⟩ | ⟨_, h, _⟩ | ⟨_, h, _⟩)
      · rw [ha]
      · cases h
      · cases h
  · rw [hr, h1, h2, hb]; simp
  · rw [hr, h1, h2, hf]
    refine ⟨by simp, ?_, by simp⟩
    intro artifact
    constructor
    · intro h
      simp only [Except.error.injEq, Failure.unresolvedDependency.injEq] at h
      exact Or.inr (Or.inl ⟨h.symm, rfl, rfl⟩)
    · rintro (⟨_, _, h⟩ | ⟨ha, _⟩ | ⟨_, _, h, _⟩)
      · rw [hb] at h; cases h
      · rw [ha]
      · exact absurd rfl h
  · rw [hr, h1, h2, hf, hw]
    refine ⟨by simp, ?_, by simp⟩
    intro artifact
    constructor
    · intro h
      simp only [Except.error.injEq, Failure.unresolvedDependency.injEq] at h
      exact Or.inr (Or.inr ⟨h.symm, rfl, by simp, rfl⟩)
    · rintro (⟨ha, _⟩ | ⟨_, _, h⟩ | ⟨ha, _⟩)
      · rw [ha]
      · cases h
      · rw [ha]
  · rw [hr, h1, h2, hf, hw, hb]; simp

theorem C4_failure_is_deploy_or_unbound_read_witness :
    (runMigration (bindingOnly Wallet) freshWorld).1 = .error (.unresolvedDependency Factory) ∧
    factoryDeploy (bindingOnly Wallet) freshWorld = some (.ok ()) ∧
    (afterFactory (bindingOnly Wallet) freshWorld).addressOf Factory = .undefined ∧
    (runMigration (revertOn Factory) freshWorld).1 =
      .error (.deployRejected "execution reverted") :=
  ⟨rfl, rfl, rfl,
    ((C4_failure_is_deploy_or_unbound_read (revertOn Factory) freshWorld).1
      "execution reverted").mpr (Or.inr rfl)⟩

/-- C6 fails as stated: started in a world where Wallet already holds `0xA0`,
with a deployer that binds the address of each new deployment, the run
succeeds and Wallet holds `0xA1` afterwards. -/
theorem C6_counterexample :
    boundWorld.addressOf Wallet = .address "0xA0" ∧
    (runMigration countingDeployer boundWorld).1 = .ok () ∧
    (runMigration countingDeployer boundWorld).2.world.addressOf Wallet = .address "0xA1" ∧
    ¬ (boundWorld.addressOf Wallet ≠ .undefined →
        ((∃ e, (runMigration countingDeployer boundWorld).1 = .error e) ∧
          (runMigration countingDeployer boundWorld).2.world.addressOf Wallet =
            boundWorld.addressOf Wallet)) := by
  refine ⟨rfl, rfl, rfl, ?_⟩
  intro h
  obtain ⟨⟨e, he⟩, _⟩ := h (by decide)
  have hr : (runMigration countingDeployer boundWorld).1 = .ok () := rfl
  rw [hr] at he
  cases he

/-- C6 amended: the migration has no duplicate-binding check.  For every
initial state in which the Wallet (or WalletFactory) artifact already has a
bound address, the run still starts by calling deploy for Wallet, and when
both deploy calls succeed the artifact's binding afterwards is the one the
deployer left, and the run succeeds exactly when Wallet and WalletFactory both
hold an address then. -/
theorem C6_bound_artifact_is_deployed_again {ν ε : Type} (d : Deployer ν ε) (w : World ν)
    (artifact : Artifact) (_ha : artifact = Wallet ∨ artifact = Factory)
    (_hb : w.addressOf artifact ≠ .undefined) :
    (runMigration d w).2.calls.head? = some (Call.deploy Wallet []) ∧
    (walletDeploy d w = .ok () → factoryDeploy d w = some (.ok ()) →
      (runMigration d w).2.world.addressOf artifact = (afterFactory d w).addressOf artifact ∧
      ((runMigration d w).1 = .ok () ↔
        ((afterFactory d w).addressOf Factory ≠ .undefined ∧
          (afterFactory d w).addressOf Wallet ≠ .undefined))) := by
  rcases run_shape d w with ⟨e0, h1, h2, hr⟩ | ⟨h1, hb, h2, hr⟩ | ⟨hex, e0, h1, hb, h2, hr⟩ |
    ⟨hex, h1, hb, h2, hf, hr⟩ | ⟨hex, fhex, h1, hb, h2, hf, hw, hr⟩ |
    ⟨hex, fhex, whex, h1, hb, h2, hf, hw, hr⟩
  · rw [hr, h2]; exact ⟨rfl, fun _ h => by cases h⟩
  · rw [hr, h2]; exact ⟨rfl, fun _ h => by cases h⟩
  · rw [hr, h2]; exact ⟨rfl, fun _ h => by cases h⟩
  · rw [hr, hf]; exact ⟨rfl, fun _ _ => ⟨rfl, by simp⟩⟩
  · rw [hr, hf, hw]; exact ⟨rfl, fun _ _ => ⟨rfl, by simp⟩⟩
  · rw [hr, hf, hw]; exact ⟨rfl, fun _ _ => ⟨rfl, by simp⟩⟩

theorem C6_bound_artifact_is_deployed_again_witness :
    (Wallet = Wallet ∨ Wallet = Factory) ∧
    boundWorld.addressOf Wallet ≠ .undefined ∧
    walletDeploy countingDeployer boundWorld = .ok () ∧
    factoryDeploy countingDeployer boundWorld = some (.ok ()) ∧
    (runMigration countingDeployer boundWorld).2.calls.head? = some (Call.deploy Wallet []) ∧
    (walletDeploy countingDeployer boundWorld = .ok () →
      factoryDeploy countingDeployer boundWorld = some (.ok ()) →
      (runMigration countingDeployer boundWorld).2.world.addressOf Wallet =
        (afterFactory countingDeployer boundWorld).addressOf Wallet ∧
      ((runMigration countingDeployer boundWorld).1 = .ok () ↔
        ((afterFactory countingDeployer boundWorld).addressOf Factory ≠ .undefined ∧
          (afterFactory countingDeployer boundWorld).addressOf Wallet ≠ .undefined))) :=
  ⟨Or.inl rfl, by decide, rfl, rfl,
    C6_bound_artifact_is_deployed_again countingDeployer boundWorld Wallet (Or.inl rfl)
      (by decide)⟩

/-- C7 fails as stated: with a deployer that always succeeds, the first run
succeeds and a second run from the world it left makes two more deploy calls. -/
theorem C7_counterexample :
    (runMigration countingDeployer freshWorld).1 = .ok () ∧
    deployCalls (rerunMigration countingDeployer freshWorld).2.calls =
      [(Wallet, []), (Factory, [Value.address "0xA3"])] ∧
    ¬ ((runMigration countingDeployer freshWorld).1 = .ok () →
        deployCalls (rerunMigration countingDeployer freshWorld).2.calls = []) := by
  refine ⟨rfl, rfl, ?_⟩
  intro h
  have h2 := h rfl
  have hr : deployCalls (rerunMigration countingDeployer freshWorld).2.calls =
      [(Wallet, []), (Factory, [Value.address "0xA3"])] := rfl
  rw [hr] at h2
  cases h2

/-- C7 amended: for every deployer on which a first run of the migration
succeeds, a second run from the resulting state calls deploy again: its first
deploy call is the Wallet deploy, it makes one or two deploy calls, and it
makes two exactly when the Wallet deploy succeeds again and leaves Wallet with
an address. -/
theorem C7_second_run_deploys_again {ν ε : Type} (d : Deployer ν ε) (w : World ν)
    (_h : (runMigration d w).1 = .ok ()) :
    (deployCalls (rerunMigration d w).2.calls).head? = some (Wallet, []) ∧
    1 ≤ (deployCalls (rerunMigration d w).2.calls).length ∧
    (deployCalls (rerunMigration d w).2.calls).length ≤ 2 ∧
    ((deployCalls (rerunMigration d w).2.calls).length = 2 ↔
      (walletDeploy d (runMigration d w).2.world = .ok () ∧
        (afterWallet d (runMigration d w).2.world).addressOf Wallet ≠ .undefined)) := by
  unfold rerunMigration
  generalize (runMigration d w).2.world = w2
  rcases run_shape d w2 with ⟨e0, h1, h2, hr⟩ | ⟨h1, hb, h2, hr⟩ | ⟨hex, e0, h1, hb, h2, hr⟩ |
    ⟨hex, h1, hb, h2, hf, hr⟩ | ⟨hex, fhex, h1, hb, h2, hf, hw, hr⟩ |
    ⟨hex, fhex, whex, h1, hb, h2, hf, hw, hr⟩
  · rw [hr, h1]
    refine ⟨rfl, ?_, ?_, ?_⟩ <;> simp [deployCalls]
  all_goals
    rw [hr, h1, hb]
    refine ⟨rfl, ?_, ?_, ?_⟩ <;> simp [deployCalls]

theorem C7_second_run_deploys_again_witness :
    (runMigration countingDeployer freshWorld).1 = .ok () ∧
    (deployCalls (rerunMigration countingDeployer freshWorld).2.calls).head? =
      some (Wallet, []) ∧
    1 ≤ (deployCalls (rerunMigration countingDeployer freshWorld).2.calls).length ∧
    (deployCalls (rerunMigration countingDeployer freshWorld).2.calls).length ≤ 2 ∧
    ((deployCalls (rerunMigration countingDeployer freshWorld).2.calls).length = 2 ↔
      (walletDeploy countingDeployer (runMigration countingDeployer freshWorld).2.world =
          .ok () ∧
        (afterWallet countingDeployer
          (runMigration countingDeployer freshWorld).2.world).addressOf Wallet ≠ .undefined)) :=
  ⟨rfl, C7_second_run_deploys_again countingDeployer freshWorld rfl⟩

/-- C8 fails as stated: with a deployer that always succeeds the run succeeds,
and no completion record is among its calls. -/
theorem C8_counterexample :
    (runMigration countingDeployer freshWorld).1 = .ok () ∧
    completionRecords (runMigration countingDeployer freshWorld).2.calls = [] ∧
    ¬ ((runMigration countingDeployer freshWorld).1 = .ok () →
        completionRecords (runMigration countingDeployer freshWorld).2.calls = [1, 2]) := by
  refine ⟨rfl, rfl, ?_⟩
  intro h
  have h2 := h rfl
  have hr : completionRecords (runMigration countingDeployer freshWorld).2.calls = [] := rfl
  rw [hr] at h2
  cases h2

/-- C8 amended: a successful run records no step completion itself: its calls
are exactly the Wallet deploy, the WalletFactory deploy and one console log, in
that order.  In every run, a WalletFactory deploy call is made only after the
Wallet deploy call, which is the first call of the run, has completed
successfully. -/
theorem C8_no_completion_record_and_sequential {ν ε : Type} (d : Deployer ν ε) (w : World ν) :
    ((runMigration d w).1 = .ok () →
      completionRecords (runMigration d w).2.calls = [] ∧
      (runMigration d w).2.calls =
        [Call.deploy Wallet [], Call.deploy Factory [(afterWallet d w).addressOf Wallet],
         Call.log (banner ((afterFactory d w).addressOf Factory)
           ((afterFactory d w).addressOf Wallet))]) ∧
    (∀ args, (Factory, args) ∈ deployCalls (runMigration d w).2.calls →
      walletDeploy d w = .ok () ∧
      ∃ rest, (runMigration d w).2.calls =
        Call.deploy Wallet [] :: Call.deploy Factory args :: rest) := by
  have key : ∀ (hex : String) (rest : List Call) (args : List Value),
      (Factory, args) ∈
        deployCalls (Call.deploy Wallet [] :: Call.deploy Factory [Value.address hex] :: rest) →
      (∀ a, (Factory, a) ∉ deployCalls rest) →
      ∃ rest2, Call.deploy Wallet [] :: Call.deploy Factory [Value.address hex] :: rest =
        Call.deploy Wallet [] :: Call.deploy Factory args :: rest2 := by
    intro hex rest args hmem hrest
    simp only [deployCalls, List.mem_cons, Prod.mk.injEq] at hmem
    rcases hmem with ⟨hne, _⟩ | ⟨_, hargs⟩ | hmem
    · exact absurd hne.symm wallet_ne_factory
    · exact ⟨rest, by rw [hargs]⟩
    · exact absurd hmem (hrest args)
  have single : ∀ args, (Factory, args) ∉ deployCalls [Call.deploy Wallet []] := by
    intro args hmem
    simp only [deployCalls, List.mem_singleton, Prod.mk.injEq] at hmem
    exact absurd hmem.1.symm wallet_ne_factory
  rcases run_shape d w with ⟨e0, h1, h2, hr⟩ | ⟨h1, hb, h2, hr⟩ | ⟨hex, e0, h1, hb, h2, hr⟩ |
    ⟨hex, h1, hb, h2, hf, hr⟩ | ⟨hex, fhex, h1, hb, h2, hf, hw, hr⟩ |
    ⟨hex, fhex, whex, h1, hb, h2, hf, hw, hr⟩
  · rw [hr]
    exact ⟨fun h => (by cases h), fun args hmem => absurd hmem (single args)⟩
  · rw [hr]
    exact ⟨fun h => (by cases h), fun args hmem => absurd hmem (single args)⟩
  · rw [hr]
    exact ⟨fun h => (by cases h), fun args hmem =>
      ⟨h1, key hex [] args hmem (fun a ha => by simp [deployCalls] at ha)⟩⟩
  · rw [hr]
    exact ⟨fun h => (by cases h), fun args hmem =>
      ⟨h1, key hex [] args hmem (fun a ha => by simp [deployCalls] at ha)⟩⟩
  · rw [hr]
    exact ⟨fun h => (by cases h), fun args hmem =>
      ⟨h1, key hex [] args hmem (fun a ha => by simp [deployCalls] at ha)⟩⟩
  · rw [hr, hb, hf, hw]
    exact ⟨fun _ => ⟨rfl, rfl⟩, fun args hmem =>
      ⟨h1, key hex _ args hmem (fun a ha => by simp [deployCalls] at ha)⟩⟩

theorem C8_no_completion_record_and_sequential_witness :
    (runMigration countingDeployer freshWorld).1 = .ok () ∧
    (Factory, [Value.address "0xA1"]) ∈
      deployCalls (runMigration countingDeployer freshWorld).2.calls ∧
    ((runMigration countingDeployer freshWorld).1 = .ok () →
      completionRecords (runMigration countingDeployer freshWorld).2.calls = [] ∧
      (runMigration countingDeployer freshWorld).2.calls =
        [Call.deploy Wallet [],
         Call.deploy Factory [(afterWallet countingDeployer freshWorld).addressOf Wallet],
         Call.log (banner ((afterFactory countingDeployer freshWorld).addressOf Factory)
           ((afterFactory countingDeployer freshWorld).addressOf Wallet))]) ∧
    (∀ args, (Factory, args) ∈ deployCalls (runMigration countingDeployer freshWorld).2.calls →
      walletDeploy countingDeployer freshWorld = .ok () ∧
      ∃ rest, (runMigration countingDeployer freshWorld).2.calls =
        Call.deploy Wallet [] :: Call.deploy Factory args :: rest) :=
  ⟨rfl, by decide, C8_no_completion_record_and_sequential countingDeployer freshWorld⟩

/-- C9 fails as stated: with a deployer that binds `0xA1` to Wallet and `0xA2`
to WalletFactory, the run returns no value, and the one text it logs lists the
WalletFactory address `0xA2` first and the Wallet address `0xA1` after it, not
the other way round. -/
theorem C9_counterexample :
    (afterWallet countingDeployer freshWorld).addressOf Wallet = .address "0xA1" ∧
    (afterFactory countingDeployer freshWorld).addressOf Factory = .address "0xA2" ∧
    (runMigration countingDeployer freshWorld).1 = .ok () ∧
    logged (runMigration countingDeployer freshWorld).2.calls =
      ["\n        Wallet Factory:        0xA2\n        Wallet Implementation: 0xA1\n    "] ∧
    (∀ text ∈ logged (runMigration countingDeployer freshWorld).2.calls,
      mentionsInOrder "0xA2" "0xA1" text = true ∧
      mentionsInOrder "0xA1" "0xA2" text = false) := by
  refine ⟨rfl, rfl, rfl, rfl, ?_⟩
  intro text hmem
  have hl : logged (runMigration countingDeployer freshWorld).2.calls =
      ["\n        Wallet Factory:        0xA2\n        Wallet Implementation: 0xA1\n    "] := rfl
  rw [hl, List.mem_singleton] at hmem
  subst hmem
  exact ⟨by decide, by decide⟩

/-- C9 amended: for every deployer whose two deploy calls succeed, binding `A1`
to Wallet and `A2` to WalletFactory so that both hold these addresses after the
second deploy, the run returns no value; it logs exactly one text, which lists
first, as `Wallet Factory`, the address `A2` and then, as
`Wallet Implementation`, the address `A1`. -/
theorem C9_logs_factory_then_wallet {ν ε : Type} (d : Deployer ν ε) (w : World ν)
    (A1 A2 : String)
    (h1 : walletDeploy d w = .ok ()) (h2 : factoryDeploy d w = some (.ok ()))
    (hA1 : (afterWallet d w).addressOf Wallet = .address A1)
    (hW : (afterFactory d w).addressOf Wallet = .address A1)
    (hF : (afterFactory d w).addressOf Factory = .address A2) :
    (runMigration d w).1 = .ok () ∧
    logged (runMigration d w).2.calls =
      ["\n        Wallet Factory:        " ++ A2 ++
        "\n        Wallet Implementation: " ++ A1 ++
        "\n    "] := by
  have hfd := factoryDeploy_of_bound d w A1 h1 hA1
  rw [h2] at hfd
  have hok : (d.deploy Factory [.address A1] (afterWallet d w)).1 = .ok () := by
    cases hd : (d.deploy Factory [.address A1] (afterWallet d w)).1 with
    | error e => rw [hd] at hfd; cases hfd
    | ok u => rfl
  rw [run_succeeds d w A1 A2 A1 h1 hA1 hok hF hW]
  exact ⟨rfl, rfl⟩

theorem C9_logs_factory_then_wallet_witness :
    walletDeploy countingDeployer freshWorld = .ok () ∧
    factoryDeploy countingDeployer freshWorld = some (.ok ()) ∧
    (afterWallet countingDeployer freshWorld).addressOf Wallet = .address "0xA1" ∧
    (afterFactory countingDeployer freshWorld).addressOf Wallet = .address "0xA1" ∧
    (afterFactory countingDeployer freshWorld).addressOf Factory = .address "0xA2" ∧
    (runMigration countingDeployer freshWorld).1 = .ok () ∧
    logged (runMigration countingDeployer freshWorld).2.calls =
      ["\n        Wallet Factory:        " ++ "0xA2" ++
        "\n        Wallet Implementation: " ++ "0xA1" ++
        "\n    "] :=
  ⟨rfl, rfl, rfl, rfl, rfl,
    C9_logs_factory_then_wallet countingDeployer freshWorld "0xA1" "0xA2" rfl rfl rfl rfl rfl⟩

end WalletInfra
